import Mathlib

/-!
Shallow embedding of the gobarber appointment controllers:
`ApointmentController.store`, `ApointmentController.delete` and
`ScheduleController.index`, together with the date-fns helpers they use.
Timestamps are modelled as integer minutes on a single canonical clock;
identities are natural numbers.  The Sequelize store is a list of rows.
-/

/-- date-fns `startOfHour`: truncate a timestamp to the start of its hour. -/
def startOfHour (t : Int) : Int := t - t % 60

/-- date-fns `isBefore`: strict comparison of two timestamps. -/
def isBefore (a b : Int) : Bool := a < b

/-- date-fns `subHours`: subtract a number of hours from a timestamp. -/
def subHours (t : Int) (h : Int) : Int := t - 60 * h

/-- date-fns `startOfDay`: truncate a timestamp to the start of its day. -/
def startOfDay (t : Int) : Int := t - t % 1440

/-- date-fns `endOfDay`: last minute of the timestamp's day. -/
def endOfDay (t : Int) : Int := startOfDay t + 1439

/-- A row of the `users` table (the fields the controllers read). -/
structure User where
  id : Nat
  name : String
  provider : Bool
deriving DecidableEq, Repr

/-- A row of the `apointments` table. `canceled_at = none` means active. -/
structure Apointment where
  id : Nat
  user_id : Nat
  provider_id : Nat
  date : Int
  canceled_at : Option Int
deriving DecidableEq, Repr

/-- The persistent state visible to the controllers. -/
structure DB where
  users : List User
  apointments : List Apointment
  nextId : Nat
deriving DecidableEq, Repr

/-- `User.findOne({ where: { id: pid, provider: true } })`. -/
def findProviderUser (db : DB) (pid : Nat) : Option User :=
  db.users.find? (fun u => u.id == pid && u.provider)

/-- The row predicate of the availability query:
`{ provider_id, canceled_at: null, date: hourStart }`. -/
def activePred (pid : Nat) (slot : Int) (a : Apointment) : Bool :=
  a.provider_id == pid && a.canceled_at.isNone && a.date == slot

/-- `Apointment.findOne({ where: { provider_id, canceled_at: null, date } })`. -/
def findActive (db : DB) (pid : Nat) (slot : Int) : Option Apointment :=
  db.apointments.find? (activePred pid slot)

/-- `Apointment.findByPk(id)`. -/
def findByPk (db : DB) (bid : Nat) : Option Apointment :=
  db.apointments.find? (fun a => a.id == bid)

/-- All active rows of one provider at one exact slot. -/
def activeAt (db : DB) (pid : Nat) (slot : Int) : List Apointment :=
  db.apointments.filter (activePred pid slot)

/-- The `(providerId, scheduledAt)` uniqueness invariant among active rows. -/
def atMostOneActive (db : DB) : Prop :=
  ∀ pid slot, (activeAt db pid slot).length ≤ 1

/-- The error outcomes of `ApointmentController.store`. -/
inductive StoreError where
  | NotAProvider
  | SelfBookingNotAllowed
  | PastDate
  | SlotUnavailable
deriving DecidableEq, Repr

/-- `ApointmentController.store` after yup validation: the provider check,
the `!(provider_id !== req.userId)` self-booking check, the strict
past-date check on `startOfHour(parseISO(date))`, the availability query,
and the `Apointment.create` call. -/
def store (db : DB) (userId provider_id : Nat) (date now : Int) :
    Except StoreError (Apointment × DB) :=
  if (findProviderUser db provider_id).isNone then
    .error .NotAProvider
  else if !(provider_id != userId) then
    .error .SelfBookingNotAllowed
  else if isBefore (startOfHour date) now then
    .error .PastDate
  else if (findActive db provider_id (startOfHour date)).isSome then
    .error .SlotUnavailable
  else
    let ap : Apointment :=
      { id := db.nextId, user_id := userId, provider_id := provider_id
        date := startOfHour date, canceled_at := none }
    .ok (ap, { db with apointments := db.apointments ++ [ap], nextId := db.nextId + 1 })

/-- The caller-visible outcome of the full `store` handler. -/
inductive StoreOutcome where
  | ok (ap : Apointment)
  | err (e : StoreError)
  | unhandled
deriving DecidableEq, Repr

/-- The full `store` handler including the awaited `Notification.create`
step.  `notifyFails = true` models that awaited call rejecting: the
handler's promise rejects (`unhandled`), after the create has persisted. -/
def storeWithNotify (db : DB) (userId provider_id : Nat) (date now : Int)
    (notifyFails : Bool) : StoreOutcome × DB :=
  match store db userId provider_id date now with
  | .error e => (.err e, db)
  | .ok (ap, db') => if notifyFails then (.unhandled, db') else (.ok ap, db')

/-- The outcomes of `ApointmentController.delete`.  `crash` is the
`TypeError` thrown by `appointment.user_id` when `findByPk` returned null. -/
inductive DeleteResult where
  | ok (ap : Apointment)
  | notOwner
  | tooLate
  | crash
deriving DecidableEq, Repr

/-- The row update performed by `appointment.save()` after
`appointment.canceled_at = new Date()`. -/
def cancelAt (bid : Nat) (now : Int) (a : Apointment) : Apointment :=
  if a.id == bid then { a with canceled_at := some now } else a

/-- `ApointmentController.delete`: load by primary key (no null check in the
source), ownership check, 2-hour lead-time check with `subHours`/`isBefore`,
then set `canceled_at` and save. -/
def delete (db : DB) (userId bid : Nat) (now : Int) : DeleteResult × DB :=
  match findByPk db bid with
  | none => (.crash, db)
  | some ap =>
    if ap.user_id != userId then (.notOwner, db)
    else if isBefore (subHours ap.date 2) now then (.tooLate, db)
    else
      (.ok { ap with canceled_at := some now },
       { db with apointments := db.apointments.map (cancelAt bid now) })

/-- The caller-visible outcome of the full `delete` handler. -/
inductive DeleteOutcome where
  | ok (ap : Apointment)
  | notOwner
  | tooLate
  | crash
  | unhandled
deriving DecidableEq, Repr

/-- The full `delete` handler including the awaited `Queue.add` step.
`dispatchFails = true` models that awaited call rejecting after the
cancellation has persisted. -/
def deleteWithDispatch (db : DB) (userId bid : Nat) (now : Int)
    (dispatchFails : Bool) : DeleteOutcome × DB :=
  match delete db userId bid now with
  | (.ok ap, db') => if dispatchFails then (.unhandled, db') else (.ok ap, db')
  | (.notOwner, db') => (.notOwner, db')
  | (.tooLate, db') => (.tooLate, db')
  | (.crash, db') => (.crash, db')

/-- The error outcome of `ScheduleController.index`. -/
inductive ScheduleError where
  | NotProvider
deriving DecidableEq, Repr

/-- `ScheduleController.index`: provider check on the caller, then the
day-range query `date BETWEEN startOfDay AND endOfDay` over active rows. -/
def scheduleIndex (db : DB) (userId : Nat) (qdate : Int) :
    Except ScheduleError (List Apointment) :=
  if (findProviderUser db userId).isNone then
    .error .NotProvider
  else
    .ok (db.apointments.filter (fun a =>
      a.provider_id == userId && a.canceled_at.isNone &&
      decide (startOfDay qdate ≤ a.date) && decide (a.date ≤ endOfDay qdate)))

/-! ### Helper lemmas -/

theorem store_ok_inv {db : DB} {userId pid : Nat} {d now : Int} {ap : Apointment} {db' : DB}
    (h : store db userId pid d now = .ok (ap, db')) :
    (findProviderUser db pid).isNone = false ∧ (pid != userId) = true ∧
    isBefore (startOfHour d) now = false ∧
    (findActive db pid (startOfHour d)).isSome = false ∧
    ap = ⟨db.nextId, userId, pid, startOfHour d, none⟩ ∧
    db' = ⟨db.users, db.apointments ++ [ap], db.nextId + 1⟩ := by
  unfold store at h
  split at h
  · simp at h
  next h1 =>
    split at h
    · simp at h
    next h2 =>
      split at h
      · simp at h
      next h3 =>
        split at h
        · simp at h
        next h4 =>
          simp only [Except.ok.injEq, Prod.mk.injEq] at h
          obtain ⟨hap, hdb⟩ := h
          subst hap
          exact ⟨by simp only [Bool.not_eq_true] at h1; exact h1,
            by simpa using h2,
            by simp only [Bool.not_eq_true] at h3; exact h3,
            by simp only [Bool.not_eq_true] at h4; exact h4, rfl, hdb.symm⟩

theorem store_eq_ok {db : DB} {userId pid : Nat} {d now : Int}
    (h1 : (findProviderUser db pid).isNone = false)
    (h2 : (pid != userId) = true)
    (h3 : isBefore (startOfHour d) now = false)
    (h4 : (findActive db pid (startOfHour d)).isSome = false) :
    store db userId pid d now =
      .ok (⟨db.nextId, userId, pid, startOfHour d, none⟩,
        ⟨db.users, db.apointments ++ [⟨db.nextId, userId, pid, startOfHour d, none⟩],
         db.nextId + 1⟩) := by
  simp [store, h1, h2, h3, h4]

theorem delete_ok_inv {db : DB} {userId bid : Nat} {now : Int} {ap' : Apointment} {db' : DB}
    (h : delete db userId bid now = (.ok ap', db')) :
    ∃ ap, findByPk db bid = some ap ∧ (ap.user_id != userId) = false ∧
      isBefore (subHours ap.date 2) now = false ∧
      ap' = { ap with canceled_at := some now } ∧
      db' = { db with apointments := db.apointments.map (cancelAt bid now) } := by
  unfold delete at h
  split at h
  next hfind => simp at h
  next ap hfind =>
    split at h
    · simp at h
    next h2 =>
      split at h
      · simp at h
      next h3 =>
        simp only [Prod.mk.injEq, DeleteResult.ok.injEq] at h
        obtain ⟨hap, hdb⟩ := h
        exact ⟨ap, hfind, by simpa using h2, by simpa using h3, hap.symm, hdb.symm⟩

theorem delete_db_cases {db : DB} {userId bid : Nat} {now : Int} {r : DeleteResult} {db' : DB}
    (h : delete db userId bid now = (r, db')) :
    db' = db ∨ db' = { db with apointments := db.apointments.map (cancelAt bid now) } := by
  unfold delete at h
  split at h
  · exact Or.inl (congrArg Prod.snd h).symm
  · split at h
    · exact Or.inl (congrArg Prod.snd h).symm
    · split at h
      · exact Or.inl (congrArg Prod.snd h).symm
      · exact Or.inr (congrArg Prod.snd h).symm

theorem cancelAt_id (bid : Nat) (now : Int) (a : Apointment) :
    (cancelAt bid now a).id = a.id := by
  unfold cancelAt; split <;> rfl

theorem find?_map_eq (f : Apointment → Apointment) (p : Apointment → Bool)
    (hf : ∀ a, p (f a) = p a) :
    ∀ l : List Apointment, (l.map f).find? p = (l.find? p).map f := by
  intro l
  induction l with
  | nil => rfl
  | cons a l ih =>
    simp only [List.map_cons, List.find?_cons, hf a]
    cases hpa : p a
    · simp [ih]
    · simp

theorem length_filter_map_le (f : Apointment → Apointment) (p : Apointment → Bool)
    (hf : ∀ a, p (f a) = true → p a = true) :
    ∀ l : List Apointment, ((l.map f).filter p).length ≤ (l.filter p).length := by
  intro l
  induction l with
  | nil => simp
  | cons a l ih =>
    simp only [List.map_cons, List.filter_cons]
    cases hfa : p (f a)
    · cases hpa : p a
      · simpa using ih
      · simp only [if_true, if_false, Bool.false_eq_true, List.length_cons]
        omega
    · rw [hf a hfa]
      simpa using Nat.succ_le_succ ih

theorem activePred_cancelAt {pid bid : Nat} {slot now : Int} {a : Apointment}
    (h : activePred pid slot (cancelAt bid now a) = true) : activePred pid slot a = true := by
  unfold cancelAt at h
  split at h
  · simp [activePred] at h
  · exact h

theorem delete_preserves_inv {db db' : DB} {userId bid : Nat} {now : Int} {r : DeleteResult}
    (h : delete db userId bid now = (r, db')) (hinv : atMostOneActive db) :
    atMostOneActive db' := by
  rcases delete_db_cases h with hdb | hdb
  · exact hdb ▸ hinv
  · intro pid slot
    subst hdb
    calc (activeAt { db with apointments := db.apointments.map (cancelAt bid now) } pid slot).length
        ≤ (activeAt db pid slot).length :=
          length_filter_map_le _ _ (fun a => activePred_cancelAt) db.apointments
      _ ≤ 1 := hinv pid slot

/-! ### Claim theorems -/

/-- Claim C8: `startOfHour` (the spec's `Normalize`) is idempotent:
normalizing an already-normalized timestamp changes nothing. -/
theorem startOfHour_idempotent (t : Int) : startOfHour (startOfHour t) = startOfHour t := by
  unfold startOfHour
  omega

/-- Claim C1: after a successful `store` for provider `pid` at raw time `T`,
a second `store` request for the same provider at any raw time `Tq` in the
same normalized hour — by a caller that passes the earlier guards
(non-self caller, slot not yet past) — fails with `SlotUnavailable`; a
second request by any caller at any clock never succeeds at all while the
first booking remains stored and active; and both `store` and `delete`
preserve the at-most-one-active-booking-per-`(providerId, scheduledAt)`
invariant. -/
theorem slot_uniqueness (db db' : DB) (r1 r2 pid : Nat) (T Tq now1 now2 : Int) (ap : Apointment)
    (hok : store db r1 pid T now1 = .ok (ap, db'))
    (hslot : startOfHour Tq = startOfHour T)
    (hself : r2 ≠ pid)
    (hpast : isBefore (startOfHour Tq) now2 = false) :
    store db' r2 pid Tq now2 = .error .SlotUnavailable ∧
    (∀ r' nw' b s', store db' r' pid Tq nw' ≠ .ok (b, s')) ∧
    ap ∈ db'.apointments ∧ ap.canceled_at = none ∧
    (atMostOneActive db → atMostOneActive db') ∧
    (∀ dbq dbq' uid bid nw r, delete dbq uid bid nw = (r, dbq') →
      atMostOneActive dbq → atMostOneActive dbq') := by
  obtain ⟨h1, h2, h3, h4, hap, hdb⟩ := store_ok_inv hok
  subst hap
  subst hdb
  have hmem : (⟨db.nextId, r1, pid, startOfHour T, none⟩ : Apointment) ∈
      db.apointments ++ [⟨db.nextId, r1, pid, startOfHour T, none⟩] :=
    List.mem_append_right _ (List.mem_singleton.mpr rfl)
  have hpred : activePred pid (startOfHour T) ⟨db.nextId, r1, pid, startOfHour T, none⟩ = true := by
    simp [activePred]
  have hnone : db.apointments.find? (activePred pid (startOfHour T)) = none := by
    cases hfa : db.apointments.find? (activePred pid (startOfHour T)) with
    | none => rfl
    | some x =>
      unfold findActive at h4
      rw [hfa] at h4
      simp at h4
  have htaken : (findActive ⟨db.users, db.apointments ++
      [⟨db.nextId, r1, pid, startOfHour T, none⟩], db.nextId + 1⟩ pid
      (startOfHour Tq)).isSome = true := by
    rw [hslot]
    exact List.find?_isSome.mpr ⟨_, hmem, hpred⟩
  refine ⟨?_, ?_, hmem, rfl, ?_, ?_⟩
  · have hbne : (pid != r2) = true := bne_iff_ne.mpr (Ne.symm hself)
    have hprov : (findProviderUser ⟨db.users, db.apointments ++
        [⟨db.nextId, r1, pid, startOfHour T, none⟩], db.nextId + 1⟩ pid).isNone = false := h1
    simp [store, hprov, hbne, hpast, htaken]
  · intro r' nw' b s' hok2
    obtain ⟨-, -, -, h4', -, -⟩ := store_ok_inv hok2
    rw [htaken] at h4'
    simp at h4'
  · intro hinv pid' slot'
    unfold activeAt
    simp only [List.filter_append]
    by_cases hp : activePred pid' slot' ⟨db.nextId, r1, pid, startOfHour T, none⟩ = true
    · obtain ⟨hpid, hslot'⟩ : pid = pid' ∧ startOfHour T = slot' := by
        simpa [activePred, Bool.and_eq_true, beq_iff_eq] using hp
      subst hpid
      subst hslot'
      have hempty : db.apointments.filter (activePred pid (startOfHour T)) = [] := by
        rw [List.filter_eq_nil_iff]
        exact List.find?_eq_none.mp hnone
      rw [hempty]
      simp [List.filter, hpred]
    · have hempty2 : List.filter (activePred pid' slot')
          [(⟨db.nextId, r1, pid, startOfHour T, none⟩ : Apointment)] = [] := by
        simp only [List.filter_cons, List.filter_nil]
        rw [if_neg hp]
      rw [hempty2]
      simpa using hinv pid' slot'
  · exact fun dbq dbq' uid bid nw r h hi => delete_preserves_inv h hi

/-- Witness for C1: in a store holding the booking just created for
provider 2 at slot 120, a second request by user 3 for raw time 125 is
refused with `SlotUnavailable`. -/
theorem slot_uniqueness_witness :
    store ⟨[⟨2, "p", true⟩], [⟨0, 1, 2, 120, none⟩], 1⟩ 3 2 125 0 =
      .error .SlotUnavailable :=
  (slot_uniqueness ⟨[⟨2, "p", true⟩], [], 0⟩ ⟨[⟨2, "p", true⟩], [⟨0, 1, 2, 120, none⟩], 1⟩
    1 3 2 130 125 0 0 ⟨0, 1, 2, 120, none⟩ rfl rfl (by decide) rfl).1

/-- Counterexample to C2: for a request whose core create succeeds, the
caller-visible outcome does depend on the awaited notification step: with a
working notification the caller receives the created booking, with a
failing one the handler's promise rejects (`unhandled`). -/
theorem notify_failure_changes_outcome :
    store ⟨[⟨2, "p", true⟩], [], 0⟩ 1 2 130 0 =
      .ok (⟨0, 1, 2, 120, none⟩, ⟨[⟨2, "p", true⟩], [⟨0, 1, 2, 120, none⟩], 1⟩) ∧
    (storeWithNotify ⟨[⟨2, "p", true⟩], [], 0⟩ 1 2 130 0 false).1 =
      StoreOutcome.ok ⟨0, 1, 2, 120, none⟩ ∧
    (storeWithNotify ⟨[⟨2, "p", true⟩], [], 0⟩ 1 2 130 0 true).1 =
      StoreOutcome.unhandled :=
  ⟨rfl, rfl, rfl⟩

/-- Claim C2 amended: a failure of the awaited notification send (on
booking) or of the awaited cancellation-job enqueue (on cancel) never
rolls back the persisted write — the stored state is identical whether or
not that call fails, and the created row is in it — but the handler does
await both calls, so on their failure the caller receives an error
instead of the created/updated booking. -/
theorem no_rollback_on_notify_failure
    (db db' : DB) (uid pid : Nat) (d now : Int) (b : Bool) (ap : Apointment)
    (hok : store db uid pid d now = .ok (ap, db')) :
    (storeWithNotify db uid pid d now b).2 = db' ∧
    ap ∈ (storeWithNotify db uid pid d now b).2.apointments ∧
    (b = true → (storeWithNotify db uid pid d now b).1 = .unhandled) ∧
    (∀ db2 db2' uid2 bid now2 ap2 b2, delete db2 uid2 bid now2 = (.ok ap2, db2') →
      (deleteWithDispatch db2 uid2 bid now2 b2).2 = db2' ∧
      (b2 = true → (deleteWithDispatch db2 uid2 bid now2 b2).1 = .unhandled)) := by
  obtain ⟨-, -, -, -, hap, hdb⟩ := store_ok_inv hok
  have hsnd : (storeWithNotify db uid pid d now b).2 = db' := by
    simp only [storeWithNotify, hok]
    cases b <;> rfl
  have hmem : ap ∈ db'.apointments := by
    rw [hdb]
    exact List.mem_append_right _ (List.mem_singleton.mpr rfl)
  refine ⟨hsnd, by rw [hsnd]; exact hmem, ?_, ?_⟩
  · intro hb
    subst hb
    simp only [storeWithNotify, hok]
    rfl
  · intro db2 db2' uid2 bid now2 ap2 b2 hdel
    constructor
    · simp only [deleteWithDispatch, hdel]
      cases b2 <;> rfl
    · intro hb2
      subst hb2
      simp only [deleteWithDispatch, hdel]
      rfl

/-- Witness for the amended C2 at a concrete failing notification. -/
theorem no_rollback_witness :
    (storeWithNotify ⟨[⟨2, "p", true⟩], [], 0⟩ 1 2 130 0 true).2 =
      ⟨[⟨2, "p", true⟩], [⟨0, 1, 2, 120, none⟩], 1⟩ ∧
    (storeWithNotify ⟨[⟨2, "p", true⟩], [], 0⟩ 1 2 130 0 true).1 =
      StoreOutcome.unhandled :=
  ⟨(no_rollback_on_notify_failure ⟨[⟨2, "p", true⟩], [], 0⟩
      ⟨[⟨2, "p", true⟩], [⟨0, 1, 2, 120, none⟩], 1⟩ 1 2 130 0 true
      ⟨0, 1, 2, 120, none⟩ rfl).1,
   (no_rollback_on_notify_failure ⟨[⟨2, "p", true⟩], [], 0⟩
      ⟨[⟨2, "p", true⟩], [⟨0, 1, 2, 120, none⟩], 1⟩ 1 2 130 0 true
      ⟨0, 1, 2, 120, none⟩ rfl).2.2.1 rfl⟩

/-- Claim C3: `delete` for an id that denotes no stored booking.  The
source has no null check after `findByPk`, so `appointment.user_id` is a
null dereference: the execution crashes instead of returning the specified
`NotFound` error. -/
theorem delete_missing_booking_crashes :
    delete ⟨[], [], 0⟩ 1 99 0 = (DeleteResult.crash, ⟨[], [], 0⟩) := rfl

/-- Counterexample to C4: at exactly two hours of lead time
(`scheduledAt - 2h = now`) the source's strict `isBefore` lets the
cancellation through, where the claim requires `TooLateToCancel`. -/
theorem leadtime_boundary_counterexample :
    (120 : Int) - 2 * 60 ≤ 0 ∧
    (delete ⟨[], [⟨0, 1, 2, 120, none⟩], 1⟩ 1 0 0).1 =
      DeleteResult.ok ⟨0, 1, 2, 120, some 0⟩ :=
  ⟨by decide, rfl⟩

/-- Claim C4 amended: for a booking found and owned by the caller, `delete`
fails with `TooLateToCancel` iff strictly less than two hours remain
(`scheduledAt - 2h < now`); at exactly two hours of lead the cancellation
passes the check. -/
theorem leadtime_strict (db : DB) (uid bid : Nat) (now : Int) (ap : Apointment)
    (hfind : findByPk db bid = some ap) (hown : ap.user_id = uid) :
    ((delete db uid bid now).1 = DeleteResult.tooLate ↔ ap.date - 2 * 60 < now) := by
  have hbne : (ap.user_id != uid) = false := by simp [hown]
  have harith : subHours ap.date 2 = ap.date - 2 * 60 := by unfold subHours; ring
  rcases lt_or_le (ap.date - 2 * 60) now with hlt | hle
  · have hb : isBefore (subHours ap.date 2) now = true := by
      rw [harith]
      simpa [isBefore] using hlt
    simp only [delete, hfind, hbne, Bool.false_eq_true, if_false, hb, if_true, true_iff]
    omega
  · have hb : isBefore (subHours ap.date 2) now = false := by
      rw [harith]
      simp only [isBefore, decide_eq_false_iff_not, not_lt]
      exact hle
    simp only [delete, hfind, hbne, Bool.false_eq_true, if_false, hb]
    constructor
    · intro hcontra
      exact absurd hcontra (by simp)
    · intro harith2
      omega

/-- Witness for the amended C4 at a concrete late cancellation. -/
theorem leadtime_strict_witness :
    ((delete ⟨[], [⟨0, 1, 2, 120, none⟩], 1⟩ 1 0 121).1 = DeleteResult.tooLate ↔
      (120 : Int) - 2 * 60 < 121) :=
  leadtime_strict ⟨[], [⟨0, 1, 2, 120, none⟩], 1⟩ 1 0 121 ⟨0, 1, 2, 120, none⟩ rfl rfl

/-- Counterexample to C5: a self-booking request whose target id is not
flagged as provider is refused with `NotAProvider`, not
`SelfBookingNotAllowed` — the provider check runs before the self check. -/
theorem self_booking_counterexample :
    store ⟨[⟨1, "u", false⟩], [], 0⟩ 1 1 130 0 = .error .NotAProvider ∧
    store ⟨[⟨1, "u", false⟩], [], 0⟩ 1 1 130 0 ≠ .error .SelfBookingNotAllowed :=
  ⟨rfl, by
    intro h
    have h2 : (Except.error StoreError.NotAProvider : Except StoreError (Apointment × DB)) =
        Except.error StoreError.SelfBookingNotAllowed := h
    simp at h2⟩

/-- Claim C5 amended: a request with `requesterId == providerId` never
reaches `Apointment.create` — `store` never returns `ok` — and it fails
with `SelfBookingNotAllowed` exactly when the target id passes the
provider check that runs first; otherwise it fails with `NotAProvider`. -/
theorem self_booking_never_stored (db : DB) (uid pid : Nat) (d now : Int)
    (hself : uid = pid) :
    (∀ ap db', store db uid pid d now ≠ .ok (ap, db')) ∧
    ((findProviderUser db pid).isNone = false →
      store db uid pid d now = .error .SelfBookingNotAllowed) := by
  cases hself
  have hbne : (uid != uid) = false := by simp
  constructor
  · intro ap db' hok
    obtain ⟨-, h2, -, -, -, -⟩ := store_ok_inv hok
    rw [hbne] at h2
    exact absurd h2 (by simp)
  · intro hprov
    simp [store, hprov, hbne]

/-- Witness for the amended C5: a provider booking themselves is refused
with `SelfBookingNotAllowed` and nothing is created. -/
theorem self_booking_witness :
    store ⟨[⟨1, "u", true⟩], [], 0⟩ 1 1 130 0 = .error .SelfBookingNotAllowed :=
  (self_booking_never_stored ⟨[⟨1, "u", true⟩], [], 0⟩ 1 1 130 0 rfl).2 rfl

/-- Counterexample to C6: `delete` has no already-cancelled check, so a
second cancellation of the same booking overwrites `canceled_at`: after
cancelling at time 0 and again at time 10 the stored value is 10, not 0. -/
theorem double_cancel_counterexample :
    (delete ⟨[], [⟨0, 1, 2, 1000, none⟩], 1⟩ 1 0 0).1 =
      DeleteResult.ok ⟨0, 1, 2, 1000, some 0⟩ ∧
    (delete (delete ⟨[], [⟨0, 1, 2, 1000, none⟩], 1⟩ 1 0 0).2 1 0 10).1 =
      DeleteResult.ok ⟨0, 1, 2, 1000, some 10⟩ :=
  ⟨rfl, rfl⟩

/-- Claim C6 amended: cancellation is soft — after a successful `delete`
the booking is still returned by `findByPk` with `canceled_at` set to the
cancellation time, and neither `store` nor `delete` ever resets a non-null
`canceled_at` back to null — but `delete` may run again on an
already-cancelled booking and overwrite `canceled_at` with a later time. -/
theorem soft_cancellation
    (db db' : DB) (uid bid : Nat) (now : Int) (ap ap' : Apointment)
    (hfind : findByPk db bid = some ap)
    (hdel : delete db uid bid now = (.ok ap', db')) :
    ap' = { ap with canceled_at := some now } ∧
    findByPk db' bid = some ap' ∧
    ap'.canceled_at ≠ none ∧
    (∀ db2 db2' uid2 pid2 d2 now2 ap2, store db2 uid2 pid2 d2 now2 = .ok (ap2, db2') →
      ∀ a ∈ db2.apointments, a.canceled_at ≠ none →
        ∃ c ∈ db2'.apointments, c.id = a.id ∧ c.canceled_at ≠ none) ∧
    (∀ db2 db2' uid2 bid2 now2 r, delete db2 uid2 bid2 now2 = (r, db2') →
      ∀ a ∈ db2.apointments, a.canceled_at ≠ none →
        ∃ c ∈ db2'.apointments, c.id = a.id ∧ c.canceled_at ≠ none) := by
  obtain ⟨ap0, hfind0, hown0, hlead0, hap', hdb'⟩ := delete_ok_inv hdel
  rw [hfind] at hfind0
  injection hfind0 with hap0
  subst hap0
  have hfindraw : db.apointments.find? (fun a => a.id == bid) = some ap := hfind
  have hidmatch : ((fun a : Apointment => a.id == bid) ap) = true :=
    @List.find?_some Apointment (fun a => a.id == bid) ap db.apointments hfindraw
  have hcancel : cancelAt bid now ap = { ap with canceled_at := some now } := by
    unfold cancelAt
    rw [if_pos hidmatch]
  refine ⟨hap', ?_, by rw [hap']; simp, ?_, ?_⟩
  · rw [hdb']
    unfold findByPk
    have hfeq : ∀ a : Apointment,
        ((cancelAt bid now a).id == bid) = (a.id == bid) := by
      intro a
      rw [cancelAt_id]
    rw [show ({ db with apointments := db.apointments.map (cancelAt bid now) } : DB).apointments
        = db.apointments.map (cancelAt bid now) from rfl]
    rw [find?_map_eq (cancelAt bid now) (fun a => a.id == bid) hfeq db.apointments]
    unfold findByPk at hfind
    rw [hfind]
    show some (cancelAt bid now ap) = some ap'
    rw [hcancel, hap']
  · intro db2 db2' uid2 pid2 d2 now2 ap2 hok a ha hc
    obtain ⟨-, -, -, -, -, hdb2⟩ := store_ok_inv hok
    exact ⟨a, by rw [hdb2]; exact List.mem_append_left _ ha, rfl, hc⟩
  · intro db2 db2' uid2 bid2 now2 r hdel2 a ha hc
    rcases delete_db_cases hdel2 with hdb2 | hdb2
    · exact ⟨a, by rw [hdb2]; exact ha, rfl, hc⟩
    · refine ⟨cancelAt bid2 now2 a, ?_, cancelAt_id bid2 now2 a, ?_⟩
      · rw [hdb2]
        exact List.mem_map.mpr ⟨a, ha, rfl⟩
      · unfold cancelAt
        split
        · simp
        · exact hc

/-- Witness for the amended C6: the cancelled booking is still found by
`findByPk`, with `canceled_at = some 0`. -/
theorem soft_cancellation_witness :
    findByPk ⟨[], [⟨0, 1, 2, 1000, some 0⟩], 1⟩ 0 =
      some ⟨0, 1, 2, 1000, some 0⟩ ∧
    (⟨0, 1, 2, 1000, some 0⟩ : Apointment).canceled_at ≠ none :=
  ⟨(soft_cancellation ⟨[], [⟨0, 1, 2, 1000, none⟩], 1⟩
      ⟨[], [⟨0, 1, 2, 1000, some 0⟩], 1⟩ 1 0 0 ⟨0, 1, 2, 1000, none⟩
      ⟨0, 1, 2, 1000, some 0⟩ rfl rfl).2.1,
   (soft_cancellation ⟨[], [⟨0, 1, 2, 1000, none⟩], 1⟩
      ⟨[], [⟨0, 1, 2, 1000, some 0⟩], 1⟩ 1 0 0 ⟨0, 1, 2, 1000, none⟩
      ⟨0, 1, 2, 1000, some 0⟩ rfl rfl).2.2.1⟩

/-- Counterexample to C7: a request whose normalized hour equals the
current instant succeeds — the created `scheduledAt` equals `now`, so it
is not strictly after the moment of creation. -/
theorem creation_now_counterexample :
    store ⟨[⟨2, "p", true⟩], [], 0⟩ 1 2 60 60 =
      .ok (⟨0, 1, 2, 60, none⟩, ⟨[⟨2, "p", true⟩], [⟨0, 1, 2, 60, none⟩], 1⟩) ∧
    ¬ ((60 : Int) < 60) :=
  ⟨rfl, by decide⟩

/-- Claim C7 amended: every booking created by `store` has
`scheduledAt = startOfHour rawTime` and `scheduledAt ≥ now` at creation —
not strictly greater, since the past-date check is strict `isBefore`. -/
theorem created_scheduledAt (db db' : DB) (uid pid : Nat) (d now : Int) (ap : Apointment)
    (hok : store db uid pid d now = .ok (ap, db')) :
    ap.date = startOfHour d ∧ now ≤ ap.date := by
  obtain ⟨-, -, h3, -, hap, -⟩ := store_ok_inv hok
  subst hap
  refine ⟨rfl, ?_⟩
  show now ≤ startOfHour d
  simp only [isBefore, decide_eq_false_iff_not, not_lt] at h3
  exact h3

/-- Witness for the amended C7 at a concrete creation. -/
theorem created_scheduledAt_witness :
    (⟨0, 1, 2, 120, none⟩ : Apointment).date = startOfHour 130 ∧
    (0 : Int) ≤ (⟨0, 1, 2, 120, none⟩ : Apointment).date :=
  created_scheduledAt ⟨[⟨2, "p", true⟩], [], 0⟩
    ⟨[⟨2, "p", true⟩], [⟨0, 1, 2, 120, none⟩], 1⟩ 1 2 130 0 ⟨0, 1, 2, 120, none⟩ rfl

/-- Claim C9: cancelling frees the slot.  If `delete` succeeds on a
booking and every active booking of provider `pid` at the requested
normalized slot was that booking, then a new `store` request for `pid` at
that slot — meeting the other preconditions (target passes the provider
check, non-self requester, slot not past) — succeeds: the availability
query ignores the now-cancelled row. -/
theorem cancel_frees_slot (db db' : DB) (uid bid r2 pid : Nat) (now now2 T : Int)
    (ap' : Apointment)
    (hdel : delete db uid bid now = (.ok ap', db'))
    (hprov : (findProviderUser db' pid).isNone = false)
    (hself : r2 ≠ pid)
    (hpast : isBefore (startOfHour T) now2 = false)
    (honly : ∀ a ∈ db.apointments, activePred pid (startOfHour T) a = true → a.id = bid) :
    store db' r2 pid T now2 =
      .ok (⟨db'.nextId, r2, pid, startOfHour T, none⟩,
        ⟨db'.users, db'.apointments ++ [⟨db'.nextId, r2, pid, startOfHour T, none⟩],
         db'.nextId + 1⟩) := by
  obtain ⟨ap0, hfind0, hown0, hlead0, hap0, hdb'⟩ := delete_ok_inv hdel
  have hbne : (pid != r2) = true := bne_iff_ne.mpr (Ne.symm hself)
  have hnone : (findActive db' pid (startOfHour T)).isSome = false := by
    subst hdb'
    unfold findActive
    cases hfa : (db.apointments.map (cancelAt bid now)).find? (activePred pid (startOfHour T)) with
    | none => rfl
    | some x =>
      exfalso
      have hx := List.find?_some hfa
      have hxmem := List.mem_of_find?_eq_some hfa
      obtain ⟨a, ha, hfa2⟩ := List.mem_map.mp hxmem
      subst hfa2
      by_cases hid : (a.id == bid) = true
      · unfold cancelAt at hx
        rw [if_pos hid] at hx
        simp [activePred] at hx
      · unfold cancelAt at hx
        rw [if_neg hid] at hx
        exact hid (beq_iff_eq.mpr (honly a ha hx))
  exact store_eq_ok hprov hbne hpast hnone

/-- Witness for C9: after cancelling the sole active booking of provider 2
at slot 960, user 3 can book that slot again. -/
theorem cancel_frees_slot_witness :
    store ⟨[⟨2, "p", true⟩], [⟨0, 1, 2, 960, some 0⟩], 1⟩ 3 2 1000 0 =
      .ok (⟨1, 3, 2, 960, none⟩,
        ⟨[⟨2, "p", true⟩], [⟨0, 1, 2, 960, some 0⟩, ⟨1, 3, 2, 960, none⟩], 2⟩) :=
  cancel_frees_slot ⟨[⟨2, "p", true⟩], [⟨0, 1, 2, 960, none⟩], 1⟩
    ⟨[⟨2, "p", true⟩], [⟨0, 1, 2, 960, some 0⟩], 1⟩ 1 0 3 2 0 0 1000
    ⟨0, 1, 2, 960, some 0⟩ rfl rfl (by decide) rfl (by decide)

/-- Claim C10: `scheduleIndex` fails with `NotProvider` when the caller is
not flagged as a provider (and returns no bookings), and otherwise
returns exactly the stored bookings whose `provider_id` is the caller,
whose `canceled_at` is null, and whose `date` lies between `startOfDay`
and `endOfDay` of the queried date, inclusive. -/
theorem schedule_index_spec (db : DB) (uid : Nat) (qdate : Int) :
    (findProviderUser db uid = none → scheduleIndex db uid qdate = .error .NotProvider) ∧
    (∀ l, scheduleIndex db uid qdate = .ok l →
      ∀ a, a ∈ l ↔ (a ∈ db.apointments ∧ a.provider_id = uid ∧ a.canceled_at = none ∧
        startOfDay qdate ≤ a.date ∧ a.date ≤ endOfDay qdate)) := by
  constructor
  · intro hn
    simp [scheduleIndex, hn]
  · intro l hl a
    unfold scheduleIndex at hl
    split at hl
    · simp at hl
    · simp only [Except.ok.injEq] at hl
      subst hl
      rw [List.mem_filter]
      simp only [Bool.and_eq_true, beq_iff_eq, Option.isNone_iff_eq_none,
        decide_eq_true_iff]
      tauto

/-- Witness for C10: provider 1's day listing for a date in day 0
contains the active booking at time 500. -/
theorem schedule_index_witness :
    (⟨0, 2, 1, 500, none⟩ : Apointment) ∈ [(⟨0, 2, 1, 500, none⟩ : Apointment)] ↔
      ((⟨0, 2, 1, 500, none⟩ : Apointment) ∈ [(⟨0, 2, 1, 500, none⟩ : Apointment)] ∧
       (⟨0, 2, 1, 500, none⟩ : Apointment).provider_id = 1 ∧
       (⟨0, 2, 1, 500, none⟩ : Apointment).canceled_at = none ∧
       startOfDay 700 ≤ (⟨0, 2, 1, 500, none⟩ : Apointment).date ∧
       (⟨0, 2, 1, 500, none⟩ : Apointment).date ≤ endOfDay 700) :=
  (schedule_index_spec ⟨[⟨1, "p", true⟩], [⟨0, 2, 1, 500, none⟩], 1⟩ 1 700).2
    [⟨0, 2, 1, 500, none⟩] rfl ⟨0, 2, 1, 500, none⟩
